import Mathlib

/-!
Shallow embedding of the spreadsheet round-trip editor of the FrontEnd
repository (components/ExcelEditor.tsx, components/FileUpload.tsx,
services/api.ts), together with proofs settling the frozen claims about it.

JavaScript strings are modelled as `List Char`; `String.prototype.trim` is
modelled as dropping whitespace characters from both ends.  Spreadsheet cell
values are modelled by the closed variant `Cell` covering the JavaScript
scalars that can appear in the 2-D arrays handled by the editor (strings,
numbers, booleans, null, undefined); `undefined` is also the value read from
an absent array slot, which is how ragged rows surface in the code.
-/

namespace FrontEndSpec

/-- Abbreviation turning a Lean string literal into the `List Char` model of a
JavaScript string. -/
def jstr (s : String) : List Char := s.data

/-- JavaScript `String.prototype.trim`: drop whitespace from both ends. -/
def jsTrim (s : List Char) : List Char :=
  ((s.dropWhile Char.isWhitespace).reverse.dropWhile Char.isWhitespace).reverse

/-- A spreadsheet cell value: the JavaScript scalars occurring in the 2-D
arrays of the editor.  `undef` doubles as the result of reading an absent array slot. -/
inductive Cell : Type
  | str (s : List Char)
  | num (n : Int)
  | bool (b : Bool)
  | null
  | undef
deriving DecidableEq, Repr

/-- JavaScript truthiness of a cell value. -/
def Cell.truthy : Cell → Bool
  | .str s => !s.isEmpty
  | .num n => n != 0
  | .bool b => b
  | .null => false
  | .undef => false

/-- The header test applied to each cell of row 0 in ExcelEditor.tsx
(a string value whose trimmed form is nonempty). -/
def Cell.isNonBlankString : Cell → Bool
  | .str s => !(jsTrim s).isEmpty
  | _ => false

/-- JavaScript `String(x)` coercion (digits rendered via `Nat.toDigits`). -/
def Cell.jsStringOf : Cell → List Char
  | .str s => s
  | .num n => if n < 0 then '-' :: Nat.toDigits 10 n.natAbs else Nat.toDigits 10 n.toNat
  | .bool b => if b then jstr "true" else jstr "false"
  | .null => jstr "null"
  | .undef => jstr "undefined"

/-- JavaScript `x || ''`: keep a truthy value, replace a falsy one by `''`. -/
def Cell.orEmpty (c : Cell) : Cell := if c.truthy then c else .str []

/-- A sheet: 2-D array of cell values, rows outer, possibly ragged. -/
abbrev Sheet := List (List Cell)

/-- An AG Grid column definition as built in the `useMemo` of
ExcelEditor.tsx.  `field` is the index `i` of the column key `col{i}`;
`headerName` is the displayed header. -/
structure ColDef where
  field : Nat
  headerName : List Char
deriving DecidableEq, Repr

/-- A tabular row object `{ id: index, col0: ..., col1: ..., ... }`; the cell
stored under key `col{i}` is `cells` at position `i`. -/
structure TabRow where
  id : Nat
  cells : List Cell
deriving DecidableEq, Repr

/-- The `(rowData, columnDefs)` pair fed to the grid widget. -/
structure Grid where
  rowData : List TabRow
  columnDefs : List ColDef
deriving DecidableEq, Repr

/-- `Math.max(...excelData.map(row => row?.length || 0))` (on a nonempty
sheet this is the maximum row length; the code only evaluates it then). -/
def maxColsOf (S : Sheet) : Nat := (S.map List.length).foldr max 0

/-- Header of column `i`: `hasHeaders && headers[i] ? String(headers[i]) :
`列${i + 1}``. -/
def headerNameOf (flag : Bool) (row0 : List Cell) (i : Nat) : List Char :=
  if flag && (row0.getD i .undef).truthy then (row0.getD i .undef).jsStringOf
  else '列' :: Nat.toDigits 10 (i + 1)

/-- Column definition of column `i` (`field: col{i}`, editable text column). -/
def colDefAt (flag : Bool) (row0 : List Cell) (i : Nat) : ColDef :=
  ⟨i, headerNameOf flag row0 i⟩

/-- The cells of one tabular row: for each `i` below `maxCols` the value
`row?.[i] || ''`. -/
def tabCells (m : Nat) (row : List Cell) : List Cell :=
  (List.range m).map fun i => (row.getD i .undef).orEmpty

/-- The `useMemo` of ExcelEditor.tsx projecting `excelData` to the grid:
header inference over row 0, synthetic `列{i+1}` labels, data rows starting
at 1 when row 0 is a header, missing/falsy cells replaced by `''`. -/
def toGrid (S : Sheet) : Grid :=
  if S.isEmpty then ⟨[], []⟩
  else
    let row0 := S.headD []
    let flag := row0.all Cell.isNonBlankString
    let m := maxColsOf S
    ⟨((S.drop (if flag then 1 else 0)).enum).map fun p => ⟨p.1, tabCells m p.2⟩,
     (List.range m).map (colDefAt flag row0)⟩

/-- `getGridData` of ExcelEditor.tsx: first output row is the column headers
(`col.headerName || ''`), then for each row object the values in column
order (`row[col.field] || ''`). -/
def fromGrid (g : Grid) : Sheet :=
  (g.columnDefs.map fun c => (Cell.str c.headerName).orEmpty) ::
    g.rowData.map fun r => g.columnDefs.map fun c => (r.cells.getD c.field .undef).orEmpty

/-- The reconciliation round trip: project to the grid and back. -/
def roundTrip (S : Sheet) : Sheet := fromGrid (toGrid S)

/-!  Cell editing (src/components/ExcelEditor.tsx, `handleCellEdit`). -/

/-- JavaScript array assignment `l[i] = v`: slots between the old length and
`i` are filled with `pad` (array holes read back as `undefined`, hole rows
behave like empty rows). -/
def setListIdx {α : Type} : List α → Nat → α → α → List α
  | [], 0, _, v => [v]
  | [], i + 1, pad, v => pad :: setListIdx [] i pad v
  | _ :: xs, 0, _, v => v :: xs
  | x :: xs, i + 1, pad, v => x :: setListIdx xs i pad v

/-- Reading cell `(r, c)` of a sheet the way the code does
(`excelData[r]?.[c]`, absent slots read as `undefined`). -/
def cellAt (S : Sheet) (r c : Nat) : Cell := (S.getD r []).getD c Cell.undef

/-- `handleCellEdit` of src/components/ExcelEditor.tsx: copy the array,
materialise the target row if absent, and assign the edited string into the
`(rowIndex, colIndex)` slot. -/
def handleCellEdit (data : Sheet) (rowIndex colIndex : Nat) (value : List Char) : Sheet :=
  setListIdx data rowIndex [] (setListIdx (data.getD rowIndex []) colIndex Cell.undef (Cell.str value))

/-!  Upload validation (components/FileUpload.tsx, `beforeUpload`). -/

/-- `beforeUpload` of FileUpload.tsx, as the list of validation error
messages it emits for a candidate file (MIME type, size in bytes); the file
counts as accepted exactly when no error is emitted (the function itself
always returns `false` merely to suppress the automatic upload of antd, before
any network call is made). -/
def beforeUploadErrors (fileType : List Char) (fileSize : Nat) : List (List Char) :=
  let isValidType := (jstr "image/").isPrefixOf fileType || fileType == jstr "application/pdf"
  if !isValidType then [jstr "只能上传图片或PDF文件！"]
  else
    let isLt10M := decide (fileSize < 10 * 1024 * 1024)
    if !isLt10M then [jstr "文件大小不能超过10MB！"]
    else []

/-- A file passes the upload validation iff `beforeUpload` emits no error. -/
def uploadAccepted (fileType : List Char) (fileSize : Nat) : Bool :=
  (beforeUploadErrors fileType fileSize).isEmpty

/-!  Persistence bridge (services/api.ts and `handleSaveToDatabase`). -/

/-- HTTP method of a persistence request. -/
inductive Method : Type
  | post
  | put
deriving DecidableEq, Repr

/-- JSON body `{ data, file_name }` sent to the quarterly-report endpoints. -/
structure ReportBody where
  data : Sheet
  file_name : List Char
deriving DecidableEq, Repr

/-- A persistence request as dispatched by api.ts. -/
structure ApiRequest where
  method : Method
  url : List Char
  body : ReportBody
deriving DecidableEq, Repr

/-- The `QuarterlyReportData` payload assembled in `handleSaveToDatabase`. -/
structure QuarterlyReportData where
  investorId : Int
  quarter : List Char
  year : Int
  portfolioData : Sheet
deriving DecidableEq, Repr

/-- Decimal rendering of an integer for URL interpolation (`${n}`). -/
def jsIntStr (n : Int) : List Char :=
  if n < 0 then '-' :: Nat.toDigits 10 n.natAbs else Nat.toDigits 10 n.toNat

/-- `saveQuarterlyReport` of api.ts: POST to the create endpoint keyed by
`(investor_id, quarter, year)`. -/
def saveQuarterlyReportRequest (d : QuarterlyReportData) : ApiRequest :=
  { method := .post
  , url := jstr "/v1/excel/quarterly-report/save?investor_id=" ++ jsIntStr d.investorId
      ++ jstr "&quarter=" ++ d.quarter ++ jstr "&year=" ++ jsIntStr d.year
  , body := ⟨d.portfolioData, jstr "quarterly_report.xlsx"⟩ }

/-- `updateQuarterlyReport` of api.ts: PUT to the update endpoint keyed by
`portfolio_id`. -/
def updateQuarterlyReportRequest (portfolioId : Int) (d : QuarterlyReportData) : ApiRequest :=
  { method := .put
  , url := jstr "/v1/excel/quarterly-report/update?portfolio_id=" ++ jsIntStr portfolioId
  , body := ⟨d.portfolioData, jstr "quarterly_report.xlsx"⟩ }

/-- JavaScript truthiness of the optional numeric `portfolioId` prop. -/
def jsTruthyOptNum : Option Int → Bool
  | none => false
  | some n => n != 0

/-- The request dispatched by `handleSaveToDatabase` of ExcelEditor.tsx:
`if (portfolioId) { update } else { create }`. -/
def handleSaveRequest (portfolioId : Option Int) (d : QuarterlyReportData) : ApiRequest :=
  if jsTruthyOptNum portfolioId then updateQuarterlyReportRequest (portfolioId.getD 0) d
  else saveQuarterlyReportRequest d

/-- Modelled from the spec: the backend persistence store behind the
quarterly-report endpoints (the backend service itself is not under src/;
§4.4 and §6 describe a durable record store addressed by an opaque record id
where a create receives a fresh id and an update addresses an existing id). -/
structure Store where
  nextId : Nat
  records : List (Nat × ReportBody)
deriving DecidableEq, Repr

/-- Modelled from the spec: well-formedness of the store — every allocated
record id is below the allocation counter. -/
def Store.WF (st : Store) : Prop := ∀ r ∈ st.records, r.1 < st.nextId

/-- Modelled from the spec: a create allocates a fresh record id, stores the
body under it and returns the new id. -/
def Store.create (st : Store) (b : ReportBody) : Nat × Store :=
  (st.nextId, ⟨st.nextId + 1, (st.nextId, b) :: st.records⟩)

/-- Modelled from the spec: an update rewrites the body stored under an
existing record id and allocates nothing. -/
def Store.update (st : Store) (portfolioId : Nat) (b : ReportBody) : Store :=
  ⟨st.nextId, st.records.map fun r => if r.1 = portfolioId then (portfolioId, b) else r⟩

/-!  `handleSaveToDatabase` error behaviour (C6). -/

/-- Outcome of the awaited save/update call: a parsed 2xx JSON response
`{success, message, portfolioId?}`, or a thrown error (transport failure or
non-2xx status, which axios raises and api.ts rethrows). -/
inductive SaveDbResult : Type
  | ok (success : Bool) (message : List Char) (portfolioId : Option Int)
  | errored
deriving DecidableEq, Repr

/-- Whether the store reported success. -/
def SaveDbResult.isSuccess : SaveDbResult → Bool
  | .ok s _ _ => s
  | .errored => false

/-- A user-visible notification emitted by the component. -/
inductive Msg : Type
  | successMsg (m : List Char)
  | errorMsg (m : List Char)
deriving DecidableEq, Repr

/-- The editor state touched by `handleSaveToDatabase`: the in-memory sheet
and the busy flag. -/
structure EditorState where
  excelData : Sheet
  saving : Bool
deriving DecidableEq, Repr

/-- `handleSaveToDatabase` of ExcelEditor.tsx, given the result of the
dispatched request: returns the final editor state, the notifications shown,
and whether the `onSave` callback fired.  On success it shows the message
from the store; on a thrown error it shows a generic error message; on a 2xx
response with `success: false` the `if (response.success)` guard simply
falls through.  `excelData` is never written. -/
def handleSaveToDatabase (st : EditorState) (res : SaveDbResult) :
    EditorState × List Msg × Bool :=
  match res with
  | .ok s m _ => (⟨st.excelData, false⟩, if s then [Msg.successMsg m] else [], s)
  | .errored => (⟨st.excelData, false⟩, [Msg.errorMsg (jstr "保存到数据库失败")], false)

/-!  Upload transport fallback (api.ts, `uploadFileAndGetExcel`, C8). -/

/-- The JSON response shape of the recognition service. -/
structure UploadResponse where
  success : Bool
  message : List Char
  excelUrl : Option (List Char)
  fileName : Option (List Char)
deriving DecidableEq, Repr

/-- `uploadFileAndGetExcel` of api.ts, given the transport outcome of the
POST: a response is returned as-is, while any thrown transport error is
swallowed and replaced by the fixed example-spreadsheet response. -/
def uploadFileAndGetExcel (transport : Except (List Char) UploadResponse) : UploadResponse :=
  match transport with
  | .ok r => r
  | .error _ =>
    ⟨true, jstr "文件上传成功，已生成Excel文件", some (jstr "/example.xlsx"), some (jstr "example.xlsx")⟩

/-!  Claim-following definitions, for refinement comparison only. -/

/-- Following the words of claim C1 (not the source): header inference as in
the code, but the synthetic label is `Column {i+1}` and each data row keeps
the cell value itself, with only missing cells treated as `''`. -/
def claimedToGrid (S : Sheet) : Grid :=
  if S.isEmpty then ⟨[], []⟩
  else
    let row0 := S.headD []
    let flag := row0.all Cell.isNonBlankString
    let m := maxColsOf S
    ⟨((S.drop (if flag then 1 else 0)).enum).map fun p =>
        ⟨p.1, (List.range m).map fun i =>
          if i < p.2.length then p.2.getD i .undef else Cell.str []⟩,
     (List.range m).map fun i =>
        ⟨i, if flag && (row0.getD i .undef).truthy then (row0.getD i .undef).jsStringOf
            else jstr "Column " ++ Nat.toDigits 10 (i + 1)⟩⟩

/-- Following the words of claim C7 (not the source): accept iff the MIME
type is an image type or `application/pdf` and the size is at most 10 MiB. -/
def claimedUploadAccepted (fileType : List Char) (fileSize : Nat) : Bool :=
  ((jstr "image/").isPrefixOf fileType || fileType == jstr "application/pdf")
    && decide (fileSize ≤ 10 * 1024 * 1024)

/-!  ## Lemmas: JavaScript primitives -/

theorem orEmpty_str (s : List Char) : (Cell.str s).orEmpty = Cell.str s := by
  cases s <;> rfl

theorem orEmpty_idem (c : Cell) : c.orEmpty.orEmpty = c.orEmpty := by
  by_cases h : c.truthy = true
  · simp [Cell.orEmpty, h]
  · simp only [Cell.orEmpty, h]
    simp

theorem orEmpty_of_falsy {c : Cell} (h : c.truthy = false) : c.orEmpty = Cell.str [] := by
  simp [Cell.orEmpty, h]

theorem isNonBlankString_eq_false_of_falsy {c : Cell} (h : c.truthy = false) :
    c.isNonBlankString = false := by
  cases c with
  | str s =>
    cases s with
    | nil => rfl
    | cons a t => simp [Cell.truthy] at h
  | num n => rfl
  | bool b => rfl
  | null => rfl
  | undef => rfl

theorem dropWhile_eq_self_of_not {α : Type} (p : α → Bool) (l : List α)
    (h : ∀ a ∈ l, p a = false) : l.dropWhile p = l := by
  cases l with
  | nil => rfl
  | cons a t => simp [List.dropWhile_cons, h a (List.mem_cons_self a t)]

theorem jsTrim_eq_self {s : List Char} (h : ∀ c ∈ s, c.isWhitespace = false) :
    jsTrim s = s := by
  unfold jsTrim
  rw [dropWhile_eq_self_of_not _ _ h, dropWhile_eq_self_of_not, List.reverse_reverse]
  intro a ha
  exact h a (List.mem_reverse.1 ha)

theorem toDigitsCore_not_ws :
    ∀ (fuel n : Nat) (ds : List Char), (∀ c ∈ ds, c.isWhitespace = false) →
      ∀ c ∈ Nat.toDigitsCore 10 fuel n ds, c.isWhitespace = false := by
  intro fuel
  induction fuel with
  | zero =>
    intro n ds hds
    simpa [Nat.toDigitsCore] using hds
  | succ fuel ih =>
    intro n ds hds c hc
    have hd : (Nat.digitChar (n % 10)).isWhitespace = false := by
      have h10 : n % 10 < 10 := Nat.mod_lt n (by norm_num)
      revert h10
      have : ∀ d < 10, (Nat.digitChar d).isWhitespace = false := by decide
      exact this (n % 10)
    simp only [Nat.toDigitsCore] at hc
    split at hc
    · rcases List.mem_cons.1 hc with h1 | h2
      · rw [h1]; exact hd
      · exact hds c h2
    · refine ih (n / 10) (Nat.digitChar (n % 10) :: ds) ?_ c hc
      intro a ha
      rcases List.mem_cons.1 ha with h1 | h2
      · rw [h1]; exact hd
      · exact hds a h2

theorem toDigits_not_ws (n : Nat) : ∀ c ∈ Nat.toDigits 10 n, c.isWhitespace = false :=
  toDigitsCore_not_ws (n + 1) n [] (by simp)

theorem label_nonBlank (i : Nat) :
    (Cell.str ('列' :: Nat.toDigits 10 (i + 1))).isNonBlankString = true := by
  have h : ∀ c ∈ '列' :: Nat.toDigits 10 (i + 1), c.isWhitespace = false := by
    intro c hc
    rcases List.mem_cons.1 hc with h1 | h2
    · rw [h1]; decide
    · exact toDigits_not_ws _ c h2
  simp [Cell.isNonBlankString, jsTrim_eq_self h]

theorem truthy_of_nonBlank {s : List Char} (h : (Cell.str s).isNonBlankString = true) :
    (Cell.str s).truthy = true := by
  cases s with
  | nil => simp [Cell.isNonBlankString, jsTrim] at h
  | cons a t => rfl

theorem all_getD {p : Cell → Bool} {l : List Cell} (h : l.all p = true) {i : Nat}
    (hi : i < l.length) (d : Cell) : p (l.getD i d) = true := by
  rw [List.getD_eq_getElem?_getD, List.getElem?_eq_getElem hi]
  exact List.all_eq_true.1 h _ (List.getElem_mem hi)

theorem getD_of_le {α : Type} {l : List α} {i : Nat} (h : l.length ≤ i) (d : α) :
    l.getD i d = d := by
  rw [List.getD_eq_getElem?_getD, List.getElem?_eq_none h]
  rfl

theorem headerNameOf_nonBlank (row0 : List Cell) (i : Nat) :
    (Cell.str (headerNameOf (row0.all Cell.isNonBlankString) row0 i)).isNonBlankString
      = true := by
  unfold headerNameOf
  by_cases hc : (row0.all Cell.isNonBlankString && (row0.getD i .undef).truthy) = true
  · rw [if_pos hc]
    rw [Bool.and_eq_true] at hc
    obtain ⟨hall, htr⟩ := hc
    by_cases hi : i < row0.length
    · have hnb := all_getD hall hi Cell.undef
      cases hcell : row0.getD i Cell.undef with
      | str s =>
        rw [hcell] at hnb
        exact hnb
      | num n => rw [hcell] at hnb; simp [Cell.isNonBlankString] at hnb
      | bool b => rw [hcell] at hnb; simp [Cell.isNonBlankString] at hnb
      | null => rw [hcell] at hnb; simp [Cell.isNonBlankString] at hnb
      | undef => rw [hcell] at hnb; simp [Cell.isNonBlankString] at hnb
    · rw [getD_of_le (Nat.le_of_not_lt hi)] at htr
      simp [Cell.truthy] at htr
  · rw [if_neg hc]
    exact label_nonBlank i

/-!  ## Lemmas: grid projection structure -/

theorem length_tabCells (m : Nat) (row : List Cell) : (tabCells m row).length = m := by
  simp [tabCells]

theorem getElem?_tabCells {i m : Nat} (hi : i < m) (row : List Cell) :
    (tabCells m row)[i]? = some ((row.getD i .undef).orEmpty) := by
  simp [tabCells, List.getElem?_map, List.getElem?_range hi]

theorem getD_tabCells {i m : Nat} (hi : i < m) (row : List Cell) (d : Cell) :
    (tabCells m row).getD i d = (row.getD i .undef).orEmpty := by
  rw [List.getD_eq_getElem?_getD, getElem?_tabCells hi]
  rfl

theorem tabCells_tabCells (m : Nat) (row : List Cell) :
    tabCells m (tabCells m row) = tabCells m row := by
  apply List.ext_getElem?
  intro n
  by_cases hn : n < m
  · rw [getElem?_tabCells hn, getElem?_tabCells hn, getD_tabCells hn, orEmpty_idem]
  · rw [List.getElem?_eq_none, List.getElem?_eq_none] <;>
      simp [length_tabCells, Nat.le_of_not_lt hn]

theorem cols_project (flag : Bool) (row0 : List Cell) (m : Nat) (row : List Cell) :
    ((List.range m).map (colDefAt flag row0)).map
      (fun c => ((tabCells m row).getD c.field .undef).orEmpty) = tabCells m row := by
  rw [List.map_map]
  have h : ∀ i ∈ List.range m,
      ((fun c : ColDef => ((tabCells m row).getD c.field .undef).orEmpty) ∘
        colDefAt flag row0) i = (row.getD i .undef).orEmpty := by
    intro i hi
    have hi' := List.mem_range.1 hi
    simp only [Function.comp_apply, colDefAt]
    rw [getD_tabCells hi', orEmpty_idem]
  rw [List.map_congr_left h]
  rfl

theorem maxColsOf_cons (r : List Cell) (S : Sheet) :
    maxColsOf (r :: S) = max r.length (maxColsOf S) := rfl

theorem maxColsOf_const {m : Nat} :
    ∀ {T : Sheet}, (∀ r ∈ T, r.length = m) → T ≠ [] → maxColsOf T = m := by
  intro T
  induction T with
  | nil => intro _ hT; exact absurd rfl hT
  | cons r T ih =>
    intro h _
    rw [maxColsOf_cons, h r (List.mem_cons_self r T)]
    cases T with
    | nil => simp [maxColsOf]
    | cons r' T' =>
      rw [ih (fun x hx => h x (List.mem_cons_of_mem r hx)) (by simp)]
      simp

theorem toGrid_of_ne_nil {S : Sheet} (hS : S.isEmpty = false) :
    toGrid S =
      ⟨((S.drop (if (S.headD []).all Cell.isNonBlankString then 1 else 0)).enum).map
          fun p => ⟨p.1, tabCells (maxColsOf S) p.2⟩,
        (List.range (maxColsOf S)).map
          (colDefAt ((S.headD []).all Cell.isNonBlankString) (S.headD []))⟩ := by
  simp [toGrid, hS]

theorem roundTrip_eq (S : Sheet) (hS : S.isEmpty = false) :
    roundTrip S =
      ((List.range (maxColsOf S)).map fun i =>
        Cell.str (headerNameOf ((S.headD []).all Cell.isNonBlankString) (S.headD []) i)) ::
      (toGrid S).rowData.map TabRow.cells := by
  unfold roundTrip fromGrid
  congr 1
  · rw [toGrid_of_ne_nil hS]
    rw [List.map_map]
    apply List.map_congr_left
    intro i _
    simp [colDefAt, orEmpty_str, Function.comp]
  · rw [toGrid_of_ne_nil hS]
    apply List.map_congr_left
    intro r hr
    obtain ⟨p, hp, rfl⟩ := List.mem_map.1 hr
    exact cols_project _ _ _ p.2

theorem toGrid_roundTrip (S : Sheet) : toGrid (roundTrip S) = toGrid S := by
  by_cases hS : S.isEmpty = true
  · rw [List.isEmpty_iff.1 hS]
    decide
  · have hS' : S.isEmpty = false := by simpa using hS
    have hrt := roundTrip_eq S hS'
    set m := maxColsOf S with hm
    set row0 := S.headD [] with hrow0
    set flag := row0.all Cell.isNonBlankString with hflag
    set H := (List.range m).map
      (fun i => Cell.str (headerNameOf flag row0 i)) with hH
    set D := (toGrid S).rowData.map TabRow.cells with hD
    -- the round-tripped sheet is `H :: D` and is nonempty
    rw [hrt]
    have hTne : ((H :: D : Sheet)).isEmpty = false := rfl
    rw [toGrid_of_ne_nil hTne]
    -- its first row is `H`, whose cells all pass the header test
    have hhead : ((H :: D : Sheet)).headD [] = H := rfl
    have hflag' : H.all Cell.isNonBlankString = true := by
      rw [List.all_eq_true]
      intro x hx
      obtain ⟨i, _, rfl⟩ := List.mem_map.1 hx
      exact headerNameOf_nonBlank row0 i
    -- every row of `H :: D` has length `m`
    have hlenH : H.length = m := by simp [hH]
    have hlenD : ∀ r ∈ D, r.length = m := by
      intro r hr
      obtain ⟨t, ht, rfl⟩ := List.mem_map.1 hr
      rw [toGrid_of_ne_nil hS'] at ht
      obtain ⟨p, hp, rfl⟩ := List.mem_map.1 ht
      exact length_tabCells m p.2
    have hmax : maxColsOf (H :: D) = m := by
      apply maxColsOf_const _ (by simp)
      intro r hr
      rcases List.mem_cons.1 hr with h1 | h2
      · rw [h1]; exact hlenH
      · exact hlenD r h2
    rw [toGrid_of_ne_nil hS']
    rw [hhead, hflag', hmax]
    congr 1
    · -- data rows coincide
      rw [if_pos rfl]
      apply List.ext_getElem?
      intro j
      have hdrop : (H :: D : Sheet).drop 1 = D := rfl
      rw [hdrop]
      rw [List.getElem?_map, List.getElem?_map, List.getElem?_enum, List.getElem?_enum,
        List.getElem?_map, List.getElem?_drop]
      rw [toGrid_of_ne_nil hS']
      rw [List.getElem?_map, List.getElem?_enum, List.getElem?_drop]
      simp only [Option.map_map]
      refine congrFun (congrArg Option.map ?_) _
      funext a
      show TabRow.mk j (tabCells m (tabCells (maxColsOf S) a))
          = TabRow.mk j (tabCells (maxColsOf S) a)
      rw [hm, tabCells_tabCells]
    · -- column definitions coincide
      apply List.map_congr_left
      intro i hi
      have hi' := List.mem_range.1 hi
      have hHi : H.getD i Cell.undef = Cell.str (headerNameOf flag row0 i) := by
        rw [hH, List.getD_eq_getElem?_getD, List.getElem?_map,
          List.getElem?_range hi']
        rfl
      have hnb : (Cell.str (headerNameOf flag row0 i)).isNonBlankString = true :=
        headerNameOf_nonBlank row0 i
      have htr : (H.getD i Cell.undef).truthy = true := by
        rw [hHi]; exact truthy_of_nonBlank hnb
      unfold colDefAt headerNameOf
      rw [if_pos (by rw [htr]; rfl)]
      rw [hHi]
      rfl

theorem roundTrip_roundTrip (S : Sheet) : roundTrip (roundTrip S) = roundTrip S :=
  congrArg fromGrid (toGrid_roundTrip S)

theorem getD_drop_add {α : Type} (l : List α) (s j : Nat) (d : α) :
    (l.drop s).getD j d = l.getD (s + j) d := by
  rw [List.getD_eq_getElem?_getD, List.getD_eq_getElem?_getD, List.getElem?_drop]

theorem getD_setListIdx_self {α : Type} :
    ∀ (i : Nat) (l : List α) (pad v d : α), (setListIdx l i pad v).getD i d = v := by
  intro i
  induction i with
  | zero =>
    intro l pad v d
    cases l <;> rfl
  | succ i ih =>
    intro l pad v d
    cases l with
    | nil => exact ih [] pad v d
    | cons x xs => exact ih xs pad v d

theorem getD_setListIdx_ne {α : Type} :
    ∀ (i j : Nat) (l : List α) (pad v : α), j ≠ i →
      (setListIdx l i pad v).getD j pad = l.getD j pad := by
  intro i
  induction i with
  | zero =>
    intro j l pad v hj
    cases l with
    | nil =>
      cases j with
      | zero => exact absurd rfl hj
      | succ k => rfl
    | cons x xs =>
      cases j with
      | zero => exact absurd rfl hj
      | succ k => rfl
  | succ i ih =>
    intro j l pad v hj
    cases l with
    | nil =>
      cases j with
      | zero => rfl
      | succ k =>
        have h := ih k [] pad v (fun h => hj (by rw [h]))
        show (pad :: setListIdx ([] : List α) i pad v).getD (k + 1) pad
            = List.getD [] (k + 1) pad
        rw [List.getD_cons_succ]
        exact h
    | cons x xs =>
      cases j with
      | zero => rfl
      | succ k =>
        have h := ih k xs pad v (fun h => hj (by rw [h]))
        show (x :: setListIdx xs i pad v).getD (k + 1) pad = (x :: xs).getD (k + 1) pad
        rw [List.getD_cons_succ, List.getD_cons_succ]
        exact h

/-!  ## Claim theorems -/

/-- C1 (counterexample): the projection described by the words of the claim —
synthetic label `Column {i+1}`, present cells stored unchanged — differs
from the projection of the code at the sheet `[[0]]`: the code produces the label
`列1` and stores `''` for the falsy cell `0`. -/
theorem toGrid_synthetic_label_counterexample :
    claimedToGrid [[Cell.num 0]] ≠ toGrid [[Cell.num 0]] := by decide

/-- C1 (amended): `toGrid` follows the claimed algorithm with two
corrections: the synthetic label is `列{i+1}` (not `Column {i+1}`), and a
data cell is kept only when truthy — every falsy cell (missing or present)
is stored as `''`.  The empty sheet yields the empty grid; `maxCols` is the
maximum row length; the header flag is `every` over the cells row 0 itself has; data
rows start at 1 iff the flag holds, carry their position as `id`, and map
column `i` to `row[i] || ''`. -/
theorem toGrid_amended_algorithm (S : Sheet) :
    (S = [] → toGrid S = ⟨[], []⟩) ∧
    (S ≠ [] →
      ((S.headD []).all Cell.isNonBlankString = true ↔
        ∀ c ∈ S.headD [], c.isNonBlankString = true) ∧
      (toGrid S).columnDefs.length = maxColsOf S ∧
      (∀ i, i < maxColsOf S →
        (toGrid S).columnDefs.getD i ⟨0, []⟩ =
          ⟨i, if (S.headD []).all Cell.isNonBlankString
                && ((S.headD []).getD i Cell.undef).truthy
              then ((S.headD []).getD i Cell.undef).jsStringOf
              else '列' :: Nat.toDigits 10 (i + 1)⟩) ∧
      (toGrid S).rowData.length =
        S.length - (if (S.headD []).all Cell.isNonBlankString then 1 else 0) ∧
      (∀ j, j < (toGrid S).rowData.length →
        ((toGrid S).rowData.getD j ⟨0, []⟩).id = j ∧
        ∀ i, i < maxColsOf S →
          ((toGrid S).rowData.getD j ⟨0, []⟩).cells.getD i Cell.undef =
            ((S.getD ((if (S.headD []).all Cell.isNonBlankString then 1 else 0) + j)
              []).getD i Cell.undef).orEmpty)) := by
  constructor
  · intro h
    subst h
    rfl
  · intro hne
    have hS' : S.isEmpty = false := List.isEmpty_eq_false.mpr hne
    refine ⟨List.all_eq_true, ?_, ?_, ?_, ?_⟩
    · rw [toGrid_of_ne_nil hS']
      simp
    · intro i hi
      rw [toGrid_of_ne_nil hS']
      rw [List.getD_eq_getElem?_getD, List.getElem?_map, List.getElem?_range hi]
      rfl
    · rw [toGrid_of_ne_nil hS']
      simp [List.enum_length]
    · intro j hj
      have hj' : j <
          (S.drop (if (S.headD []).all Cell.isNonBlankString then 1 else 0)).length := by
        rw [toGrid_of_ne_nil hS'] at hj
        simpa [List.enum_length] using hj
      have hrow : (toGrid S).rowData.getD j ⟨0, []⟩ =
          ⟨j, tabCells (maxColsOf S)
            ((S.drop (if (S.headD []).all Cell.isNonBlankString then 1 else 0)).getD j [])⟩ := by
        rw [toGrid_of_ne_nil hS']
        rw [List.getD_eq_getElem?_getD, List.getElem?_map, List.getElem?_enum,
          List.getElem?_eq_getElem hj']
        rw [List.getD_eq_getElem?_getD, List.getElem?_eq_getElem hj']
        rfl
      rw [hrow]
      refine ⟨rfl, ?_⟩
      intro i hi
      rw [getD_tabCells hi, getD_drop_add]

/-- C1 (witness): the amended algorithm evaluated at the sheet `[[0]]`. -/
theorem toGrid_amended_algorithm_witness :
    ([[Cell.num 0]] ≠ ([] : Sheet)) ∧
    (toGrid [[Cell.num 0]]).columnDefs.getD 0 ⟨0, []⟩ = ⟨0, jstr "列1"⟩ ∧
    ((toGrid [[Cell.num 0]]).rowData.getD 0 ⟨0, []⟩).cells.getD 0 Cell.undef
      = Cell.str [] := by
  have h := (toGrid_amended_algorithm [[Cell.num 0]]).2 (by decide)
  refine ⟨by decide, ?_, ?_⟩
  · have hc := h.2.2.1 0 (by decide)
    rw [hc]
    decide
  · have hr := (h.2.2.2.2 0 (by decide)).2 0 (by decide)
    rw [hr]
    decide

/-- C2 (confirmed): the `toGrid`/`fromGrid` reconciliation round trip is
idempotent from the second application onward — reconciling the
round-tripped sheet changes nothing — while a single round trip need not
return the original sheet when its first row is not a valid header (a
synthesized header row is added). -/
theorem roundTrip_idempotent_from_second_application :
    (∀ S : Sheet, roundTrip (roundTrip S) = roundTrip S) ∧
      roundTrip [[Cell.num 5]] ≠ [[Cell.num 5]] :=
  ⟨roundTrip_roundTrip, by decide⟩

/-- C3 (counterexample): for the ragged sheet `[["a"],["b","c","d"]]` the
claim predicts 2 data rows; the `every` in the code runs over the single
cell present in row 0 only, accepts it as a header row, and yields exactly 1 data row. -/
theorem ragged_sheet_counterexample :
    (toGrid [[Cell.str (jstr "a")],
      [Cell.str (jstr "b"), Cell.str (jstr "c"), Cell.str (jstr "d")]]).rowData.length
      ≠ 2 := by decide

/-- C3 (amended): for `S = [["a"],["b","c","d"]]`, `maxCols = 3` and header
inference checks row 0 only against its own length — so the single cell
`"a"` passes the `every` check and row 0 IS treated as a header; columns get
headers `a`, `列2`, `列3`, and the grid has exactly 1 data row
`["b","c","d"]` (blank-padding would apply to absent cells). -/
theorem ragged_sheet_header_inference :
    maxColsOf [[Cell.str (jstr "a")],
      [Cell.str (jstr "b"), Cell.str (jstr "c"), Cell.str (jstr "d")]] = 3 ∧
    [Cell.str (jstr "a")].all Cell.isNonBlankString = true ∧
    toGrid [[Cell.str (jstr "a")],
        [Cell.str (jstr "b"), Cell.str (jstr "c"), Cell.str (jstr "d")]] =
      ⟨[⟨0, [Cell.str (jstr "b"), Cell.str (jstr "c"), Cell.str (jstr "d")]⟩],
       [⟨0, jstr "a"⟩, ⟨1, jstr "列2"⟩, ⟨2, jstr "列3"⟩]⟩ := by decide

/-- C4 (counterexample): for `S = [["5","6"],["7","8"]]` with string cells,
the claim predicts two data rows with `["5","6"]` as data; but `"5"` and
`"6"` are non-empty strings, so the code treats row 0 as a header row and
yields exactly 1 data row. -/
theorem numeric_first_row_counterexample :
    (toGrid [[Cell.str (jstr "5"), Cell.str (jstr "6")],
      [Cell.str (jstr "7"), Cell.str (jstr "8")]]).rowData.length ≠ 2 := by decide

/-- C4 (amended): the header-inference negative case requires numeric
cells: for `S = [[5,6],[7,8]]` (numbers), `toGrid` yields the synthetic
columns `列1`, `列2` and two data rows with `[5,6]` as data, not as header;
for the string cells `["5","6"]` of the original claim, row 0 is instead
treated as a header row (headers `5`, `6`, one data row). -/
theorem numeric_first_row_header_inference :
    toGrid [[Cell.num 5, Cell.num 6], [Cell.num 7, Cell.num 8]] =
      ⟨[⟨0, [Cell.num 5, Cell.num 6]⟩, ⟨1, [Cell.num 7, Cell.num 8]⟩],
       [⟨0, jstr "列1"⟩, ⟨1, jstr "列2"⟩]⟩ ∧
    toGrid [[Cell.str (jstr "5"), Cell.str (jstr "6")],
        [Cell.str (jstr "7"), Cell.str (jstr "8")]] =
      ⟨[⟨0, [Cell.str (jstr "7"), Cell.str (jstr "8")]⟩],
       [⟨0, jstr "5"⟩, ⟨1, jstr "6"⟩]⟩ := by decide

/-- C5 (counterexample): supplying the portfolioId `0` does NOT issue an
update — `if (portfolioId)` is JavaScript truthiness, `0` is falsy, and the
dispatched request is the POST create, not the PUT update the claim
requires for every supplied id. -/
theorem save_dispatch_zero_id_counterexample :
    (handleSaveRequest (some 0) ⟨1, jstr "2024Q1", 2024, []⟩).method = Method.post ∧
      Method.post ≠ Method.put := by decide

/-- C5 (amended): without a portfolioId the save dispatches the POST create
request; with a NONZERO portfolioId it dispatches the PUT update request
against that id (a supplied `0` is falsy and dispatches a create).  The two
paths are distinguishable by method.  Against the spec-modelled store, a
create allocates and returns a fresh record id while an update rewrites in
place and allocates nothing. -/
theorem save_dispatch_create_vs_update :
    (∀ d, handleSaveRequest none d = saveQuarterlyReportRequest d ∧
      (saveQuarterlyReportRequest d).method = Method.post) ∧
    (∀ pid d, pid ≠ 0 →
      handleSaveRequest (some pid) d = updateQuarterlyReportRequest pid d ∧
      (updateQuarterlyReportRequest pid d).method = Method.put) ∧
    Method.post ≠ Method.put ∧
    (∀ (st : Store) (b : ReportBody), st.WF →
      (st.create b).1 ∉ st.records.map Prod.fst ∧
      (st.create b).2.records.map Prod.fst = (st.create b).1 :: st.records.map Prod.fst) ∧
    (∀ (st : Store) (pid : Nat) (b : ReportBody),
      (st.update pid b).records.map Prod.fst = st.records.map Prod.fst) := by
  refine ⟨?_, ?_, by decide, ?_, ?_⟩
  · intro d
    exact ⟨rfl, rfl⟩
  · intro pid d hpid
    constructor
    · unfold handleSaveRequest jsTruthyOptNum
      simp [hpid]
    · rfl
  · intro st b hwf
    constructor
    · intro hmem
      obtain ⟨r, hr, hfst⟩ := List.mem_map.1 hmem
      have := hwf r hr
      rw [hfst] at this
      exact absurd this (by simp [Store.create])
    · rfl
  · intro st pid b
    unfold Store.update
    rw [List.map_map]
    apply List.map_congr_left
    intro r _
    by_cases h : r.1 = pid
    · simp [h]
    · simp [h]

/-- C5 (witness): the amended dispatch evaluated at portfolioId `7` and at
a concrete well-formed store. -/
theorem save_dispatch_create_vs_update_witness :
    ((7 : Int) ≠ 0 ∧
      handleSaveRequest (some 7) ⟨1, jstr "2024Q1", 2024, []⟩ =
        updateQuarterlyReportRequest 7 ⟨1, jstr "2024Q1", 2024, []⟩) ∧
    (Store.WF ⟨5, [(3, ⟨[], jstr "a.xlsx"⟩)]⟩ ∧
      (Store.create ⟨5, [(3, ⟨[], jstr "a.xlsx"⟩)]⟩ ⟨[], jstr "b.xlsx"⟩).1 ∉
        ([(3, (⟨[], jstr "a.xlsx"⟩ : ReportBody))].map Prod.fst)) := by
  have hwf : Store.WF ⟨5, [(3, ⟨[], jstr "a.xlsx"⟩)]⟩ := by
    intro r hr
    simp at hr
    rw [hr]
    decide
  refine ⟨⟨by decide, ?_⟩, hwf, ?_⟩
  · exact (save_dispatch_create_vs_update.2.1 7 ⟨1, jstr "2024Q1", 2024, []⟩
      (by decide)).1
  · exact ((save_dispatch_create_vs_update.2.2.2.1 ⟨5, [(3, ⟨[], jstr "a.xlsx"⟩)]⟩
      ⟨[], jstr "b.xlsx"⟩ hwf).1)

/-- C6 (counterexample): a 2xx response with `success: false` is a
non-success response from the store, yet `handleSaveToDatabase` surfaces NO
message at all (the `if (response.success)` guard silently falls through),
contradicting the claim that the caller surfaces the error message; the
in-memory sheet is still left unchanged. -/
theorem save_silent_failure_counterexample :
    (handleSaveToDatabase ⟨[[Cell.str (jstr "x")]], true⟩
      (SaveDbResult.ok false (jstr "rejected") none)).2.1 = [] ∧
    (handleSaveToDatabase ⟨[[Cell.str (jstr "x")]], true⟩
      (SaveDbResult.ok false (jstr "rejected") none)).1.excelData
      = [[Cell.str (jstr "x")]] := by decide

/-- C6 (amended): on every non-success outcome the in-memory sheet is left
unchanged and `onSave` does not fire; a thrown transport/HTTP error is
surfaced as the generic error notification, while a 2xx response with
`success: false` surfaces no message at all. -/
theorem save_error_leaves_state_unchanged (st : EditorState) (res : SaveDbResult)
    (h : res.isSuccess = false) :
    (handleSaveToDatabase st res).1.excelData = st.excelData ∧
    (handleSaveToDatabase st res).2.2 = false ∧
    (res = .errored →
      (handleSaveToDatabase st res).2.1 = [Msg.errorMsg (jstr "保存到数据库失败")]) ∧
    (∀ m p, res = .ok false m p → (handleSaveToDatabase st res).2.1 = []) := by
  cases res with
  | ok s m p =>
    cases s with
    | false =>
      refine ⟨rfl, rfl, ?_, ?_⟩
      · intro hc
        exact absurd hc (by simp)
      · intro _ _ _
        rfl
    | true => cases h
  | errored =>
    refine ⟨rfl, rfl, ?_, ?_⟩
    · intro _
      rfl
    · intro m p hc
      exact absurd hc (by simp)

/-- C6 (witness): the amended behaviour evaluated at a thrown error over a
concrete editor state. -/
theorem save_error_leaves_state_unchanged_witness :
    (SaveDbResult.errored.isSuccess = false) ∧
    (handleSaveToDatabase ⟨[[Cell.num 1]], true⟩ SaveDbResult.errored).1.excelData
      = [[Cell.num 1]] ∧
    (handleSaveToDatabase ⟨[[Cell.num 1]], true⟩ SaveDbResult.errored).2.1
      = [Msg.errorMsg (jstr "保存到数据库失败")] := by
  have h := save_error_leaves_state_unchanged ⟨[[Cell.num 1]], true⟩
    SaveDbResult.errored (by decide)
  exact ⟨by decide, h.1, h.2.2.1 rfl⟩

/-- C7 (counterexample): a PNG of exactly 10 MiB is not larger than
10 MiB, so the claim accepts it, but the check in the code is strict
(`size / 1024 / 1024 < 10`) and rejects it. -/
theorem upload_ten_mib_counterexample :
    claimedUploadAccepted (jstr "image/png") (10 * 1024 * 1024) = true ∧
      uploadAccepted (jstr "image/png") (10 * 1024 * 1024) = false := by decide

/-- C7 (amended): the upload validation accepts a file iff its MIME type is
an image type or `application/pdf` AND its size is STRICTLY smaller than
10 MiB, with a validation error emitted (before any network call) in each
rejecting case.  In particular a 12 MiB JPEG is rejected, a 2 MiB PNG and a
2 MiB PDF are accepted, and a 2 MiB .docx is rejected. -/
theorem upload_validation_boundary :
    (∀ t s, uploadAccepted t s =
      (((jstr "image/").isPrefixOf t || t == jstr "application/pdf")
        && decide (s < 10 * 1024 * 1024))) ∧
    uploadAccepted (jstr "image/jpeg") (12 * 1024 * 1024) = false ∧
    uploadAccepted (jstr "image/png") (2 * 1024 * 1024) = true ∧
    uploadAccepted (jstr "application/pdf") (2 * 1024 * 1024) = true ∧
    uploadAccepted
      (jstr "application/vnd.openxmlformats-officedocument.wordprocessingml.document")
      (2 * 1024 * 1024) = false := by
  refine ⟨?_, by decide, by decide, by decide, by decide⟩
  intro t s
  unfold uploadAccepted beforeUploadErrors
  by_cases h1 : ((jstr "image/").isPrefixOf t || t == jstr "application/pdf") = true
  · by_cases h2 : decide (s < 10 * 1024 * 1024) = true
    · simp [h1, h2]
    · simp [h1, Bool.of_not_eq_true h2]
  · simp [Bool.of_not_eq_true h1]

/-- C8 (confirmed): on any transport failure `uploadFileAndGetExcel`
swallows the error and returns the fixed success response referencing the
example spreadsheet (`excelUrl` `/example.xlsx`, `fileName` `example.xlsx`);
a received response is returned unchanged. -/
theorem upload_transport_fallback :
    (∀ e, uploadFileAndGetExcel (Except.error e) =
      ⟨true, jstr "文件上传成功，已生成Excel文件",
        some (jstr "/example.xlsx"), some (jstr "example.xlsx")⟩) ∧
    (∀ r, uploadFileAndGetExcel (Except.ok r) = r) :=
  ⟨fun _ => rfl, fun _ => rfl⟩

/-- C9 (confirmed): committing a single cell edit writes the new value into
exactly the `(rowIndex, colIndex)` slot; every other cell of the sheet —
other rows and the other cells of the edited row — reads back unchanged. -/
theorem cell_edit_frame_property (data : Sheet) (r c : Nat) (v : List Char) :
    cellAt (handleCellEdit data r c v) r c = Cell.str v ∧
    (∀ r' c', r' ≠ r ∨ c' ≠ c →
      cellAt (handleCellEdit data r c v) r' c' = cellAt data r' c') := by
  constructor
  · unfold cellAt handleCellEdit
    rw [getD_setListIdx_self, getD_setListIdx_self]
  · intro r' c' hne
    by_cases hr : r' = r
    · have hc : c' ≠ c := by
        rcases hne with h | h
        · exact absurd hr h
        · exact h
      subst hr
      unfold cellAt handleCellEdit
      rw [getD_setListIdx_self, getD_setListIdx_ne c c' _ _ _ hc]
    · unfold cellAt handleCellEdit
      rw [getD_setListIdx_ne r r' _ _ _ hr]

/-- C9 (witness): the frame property evaluated at a concrete edit. -/
theorem cell_edit_frame_property_witness :
    ((1 : Nat) ≠ 0 ∨ (0 : Nat) ≠ 1) ∧
    cellAt (handleCellEdit [[Cell.str (jstr "a"), Cell.str (jstr "b")],
      [Cell.str (jstr "c")]] 0 1 (jstr "z")) 1 0 =
      cellAt [[Cell.str (jstr "a"), Cell.str (jstr "b")], [Cell.str (jstr "c")]] 1 0 :=
  ⟨Or.inl (by decide),
    (cell_edit_frame_property [[Cell.str (jstr "a"), Cell.str (jstr "b")],
      [Cell.str (jstr "c")]] 0 1 (jstr "z")).2 1 0 (Or.inl (by decide))⟩

/-- C10 (confirmed): in both directions of the projection every falsy cell
value — `0`, `''`, `null`, `undefined`, `false` — is replaced by `''`:
`x || ''` maps it to `''`, `toGrid` stores `''` for it (and, it being
non-header, generates the synthetic `列1` column), `getGridData` writes
`''` for it under any header, and consequently such a cell does not survive
the round trip (in particular the number `0` comes back as `''`). -/
theorem falsy_cells_become_empty_string (cv : Cell) (h : cv.truthy = false) :
    cv.orEmpty = Cell.str [] ∧
    toGrid [[cv]] = ⟨[⟨0, [Cell.str []]⟩], [⟨0, jstr "列1"⟩]⟩ ∧
    fromGrid ⟨[⟨0, [cv]⟩], [⟨0, jstr "H"⟩]⟩ =
      [[Cell.str (jstr "H")], [Cell.str []]] ∧
    roundTrip [[cv]] = [[Cell.str (jstr "列1")], [Cell.str []]] := by
  cases cv with
  | str s =>
    have hs : s = [] := by
      cases s with
      | nil => rfl
      | cons a t => simp [Cell.truthy] at h
    subst hs
    decide
  | num n =>
    have hn : n = 0 := by simpa [Cell.truthy] using h
    subst hn
    decide
  | bool b =>
    have hb : b = false := by simpa [Cell.truthy] using h
    subst hb
    decide
  | null => decide
  | undef => decide

/-- C10 (witness): the falsy-cell behaviour evaluated at the number `0`. -/
theorem falsy_cells_become_empty_string_witness :
    (Cell.num 0).truthy = false ∧
    ((Cell.num 0).orEmpty = Cell.str [] ∧
      toGrid [[Cell.num 0]] = ⟨[⟨0, [Cell.str []]⟩], [⟨0, jstr "列1"⟩]⟩ ∧
      fromGrid ⟨[⟨0, [Cell.num 0]⟩], [⟨0, jstr "H"⟩]⟩ =
        [[Cell.str (jstr "H")], [Cell.str []]] ∧
      roundTrip [[Cell.num 0]] = [[Cell.str (jstr "列1")], [Cell.str []]]) :=
  ⟨by decide, falsy_cells_become_empty_string (Cell.num 0) (by decide)⟩

end FrontEndSpec
